import Mathlib

/-
Verification of the moq-encoder-player publisher and downloader workers
(src/src-encoder/moq_sender.js and the downloader worker) against the
natural-language specification. The definitions below are a shallow
embedding of the JavaScript source: JS objects keyed by strings become
association lists, the per-track in-flight promise maps become finite
sets of the promise ids, and the module-level mutable bindings become an
explicit state record threaded through the functions. Message strings
that no property depends on are abridged to their static parts; message
strings that properties quote are reproduced verbatim from the source.
-/

namespace MoqEP

/-- Worker lifecycle states (StateEnum from utils.js, described in the
spec data model): Created, Instantiated, Running, Stopped. -/
inductive StateEnum
  | Created
  | Instantiated
  | Running
  | Stopped
  deriving DecidableEq

/-- One configured track, as in the moqTracks example of moq_sender.js:
numeric id, namespace, name, authInfo, the isHipri priority flag, the
in-flight bound maxInFlightRequests, and the numSubscribers counter,
which is absent (none) until the first subscriber arrives. -/
structure Track where
  id : Nat
  trackNamespace : String
  trackName : String
  authInfo : String
  isHipri : Bool
  maxInFlightRequests : Nat
  numSubscribers : Option Nat
  deriving DecidableEq

/-- The tracks configuration object: an association list from the track
kind (the message type string, for example audio, video, data) to its
descriptor. JS object keys are unique; lookup takes the first binding. -/
def lookupTrack (tracks : List (String × Track)) (ty : String) : Option Track :=
  (tracks.find? (fun p => p.1 == ty)).map (fun p => p.2)

/-- Per-track publisher sequence state, created by createTrackState in
moq_sender.js as currentGroupSeq 0, currentObjectSeq 0. -/
structure TrackState where
  currentGroupSeq : Nat
  currentObjectSeq : Nat
  deriving DecidableEq

/-- createTrackState from moq_sender.js. -/
def createTrackState : TrackState :=
  { currentGroupSeq := 0, currentObjectSeq := 0 }

/-- The data carried by a packager (LocPackager or RawPackager) as read
back by packet.GetData(): the media type, the chunk type (key or delta),
the sequence id, the promise id pId used to key the in-flight map, and
the GetDataStr rendering used inside drop messages (kept abstract). -/
structure PacketData where
  mediaType : String
  chunkType : String
  seqId : Int
  pId : Nat
  dataStr : String
  deriving DecidableEq

/-- The chunk data record assembled by the message listener of
moq_sender.js before calling sendChunkToTransport. The chunkType field
is the type of the encoded chunk (chunk.type in the source); fields the
claims never inspect (timestamps, durations, metadata) are elided. -/
structure ChunkData where
  mediaType : String
  chunkType : String
  seqId : Int
  pId : Nat
  dataStr : String
  deriving DecidableEq

/-- One MOQT object as written by moqSendObjectToWriter: the track id,
the group and object sequence numbers and the sendOrder priority. The
payload bytes are not modeled; no claim inspects them. -/
structure MoqObject where
  trackId : Nat
  groupSeq : Nat
  objSeq : Nat
  sendOrder : Int
  deriving DecidableEq

/-- Outcome of processing one chunk, mirroring what the listener of
moq_sender.js observes: a resolved dropped-object value with its message,
a successfully written object, or a thrown error (message abridged). -/
inductive ChunkOutcome
  | droppedMsg (message : String)
  | sentObj (obj : MoqObject)
  | errMsg (message : String)
  deriving DecidableEq

/-- The module-level mutable publisher state of moq_sender.js:
moqPublisherState (a map from track id to its sequence state) and
inFlightRequests (a map from track kind to the set of pending close
promise ids; only the key set matters to the source, which tests
membership and counts Object.keys). -/
structure PubState where
  moqPublisherState : Nat → Option TrackState
  inFlightRequests : String → Finset Nat

/-- State after moqResetState and initInflightReqData: no per-track
sequence state, empty in-flight map for every track kind. -/
def initPubState : PubState :=
  { moqPublisherState := fun _ => none, inFlightRequests := fun _ => (∅ : Finset Nat) }

/-- MAX_SAFE_INTEGER of JavaScript, 2 to the 53 minus 1. -/
def maxSafeInteger : Int := 2 ^ 53 - 1

/-- The floor of MAX_SAFE_INTEGER over 2, that is 4503599627370495. -/
def halfMaxSafeFloor : Int := 4503599627370495

/-- Models the JavaScript expression Math.floor(ret + Number.MAX_SAFE_INTEGER / 2)
from moqCalculateSendOrder under IEEE-754 binary64 semantics, for an
integer ret with 0 ≤ ret ≤ 2 ^ 52. MAX_SAFE_INTEGER / 2 is computed
exactly as 4503599627370495.5, which is representable. For ret = 0 the
sum is below 2 ^ 52, still representable, and the floor is
4503599627370495. For ret ≥ 1 the exact sum ret + 4503599627370495.5
lies in the binade from 2 ^ 52 to 2 ^ 53 where consecutive doubles are
one apart, so the addition rounds the half to the nearest even integer:
to ret + 4503599627370495 when that value is even (ret odd), and to
ret + 4503599627370496 when ret + 4503599627370495 is odd (ret even).
Math.floor then leaves the integer unchanged. -/
def jsFloorAddHalfMaxSafe (ret : Int) : Int :=
  if ret = 0 then halfMaxSafeFloor
  else if (ret + halfMaxSafeFloor) % 2 = 0 then ret + halfMaxSafeFloor
  else ret + halfMaxSafeFloor + 1

/-- moqCalculateSendOrder from moq_sender.js. A negative seqId maps to
MAX_SAFE_INTEGER (send now); otherwise a hipri track adds half of
MAX_SAFE_INTEGER (see jsFloorAddHalfMaxSafe) and a lopri track keeps the
seqId. The source reads tracks[mediaType].isHipri and is only called
after the track lookup succeeded; getD false totalizes the lookup here. -/
def moqCalculateSendOrder (tracks : List (String × Track)) (packet : PacketData) : Int :=
  let ret := packet.seqId
  if ret < 0 then
    maxSafeInteger
  else if ((lookupTrack tracks packet.mediaType).map Track.isHipri).getD false then
    jsFloorAddHalfMaxSafe ret
  else
    ret

/-- addToInflight from moq_sender.js: when the promise id is already a
key of the per-track map the source logs an error and does not
overwrite; otherwise the id is inserted. -/
def addToInflight (st : PubState) (mediaType : String) (pId : Nat) : PubState :=
  if pId ∈ st.inFlightRequests mediaType then st
  else
    { st with inFlightRequests := fun ty =>
        if ty = mediaType then insert pId (st.inFlightRequests ty)
        else st.inFlightRequests ty }

/-- removeFromInflight from moq_sender.js, run when a close promise
settles: the id is deleted when present. -/
def removeFromInflight (st : PubState) (mediaType : String) (id : Nat) : PubState :=
  { st with inFlightRequests := fun ty =>
      if ty = mediaType then (st.inFlightRequests ty).erase id
      else st.inFlightRequests ty }

/-- Tail of createSendPromise from moq_sender.js after its guards: create
the track state when absent, compute the sendOrder, bump the group
sequence and reset the object sequence on a non-delta chunk, emit the
object with the current pair, increment the object sequence, and
register the close promise in the in-flight map. -/
def sendPacketObject (tracks : List (String × Track)) (st : PubState)
    (track : Track) (packet : PacketData) : ChunkOutcome × PubState :=
  let trackId := track.id
  let st1 : PubState :=
    match st.moqPublisherState trackId with
    | some _ => st
    | none =>
      { st with moqPublisherState := fun tid =>
          if tid = trackId then some createTrackState else st.moqPublisherState tid }
  let sendOrder := moqCalculateSendOrder tracks packet
  let ts0 := (st1.moqPublisherState trackId).getD createTrackState
  let ts1 : TrackState :=
    if packet.chunkType ≠ "delta" then
      { currentGroupSeq := ts0.currentGroupSeq + 1, currentObjectSeq := 0 }
    else ts0
  let obj : MoqObject :=
    { trackId := trackId, groupSeq := ts1.currentGroupSeq,
      objSeq := ts1.currentObjectSeq, sendOrder := sendOrder }
  let ts2 : TrackState := { ts1 with currentObjectSeq := ts1.currentObjectSeq + 1 }
  let st2 : PubState :=
    { st1 with moqPublisherState := fun tid =>
        if tid = trackId then some ts2 else st1.moqPublisherState tid }
  (ChunkOutcome.sentObj obj, addToInflight st2 packet.mediaType packet.pId)

/-- createSendPromise from moq_sender.js: throw when the transport is not
open, throw when the media type has no track, drop when no publisher
state exists yet for the track id and the chunk is a delta (the dropped
message is verbatim from the source up to its data suffix), otherwise
proceed to create state, send and register the object. -/
def createSendPromise (tracks : List (String × Track)) (wtOpen : Bool)
    (st : PubState) (packet : PacketData) : ChunkOutcome × PubState :=
  if wtOpen = false then
    (ChunkOutcome.errMsg "request not send because transport is NOT open", st)
  else
    match lookupTrack tracks packet.mediaType with
    | none => (ChunkOutcome.errMsg "OBJECT mediaType NOT supported, no track found", st)
    | some track =>
      if (st.moqPublisherState track.id).isNone ∧ packet.chunkType = "delta" then
        (ChunkOutcome.droppedMsg
          ("Dropped chunk because first object can not be delta, data: " ++ packet.dataStr), st)
      else
        sendPacketObject tracks st track packet

/-- Packet construction of createRequest from moq_sender.js: a chunk on
the data track goes through RawPackager with the chunk type forced to
key; any other chunk goes through LocPackager keeping the chunk type of
the encoded chunk. -/
def createRequestPacket (chunkData : ChunkData) : PacketData :=
  if chunkData.mediaType = "data" then
    { mediaType := chunkData.mediaType, chunkType := "key",
      seqId := chunkData.seqId, pId := chunkData.pId, dataStr := chunkData.dataStr }
  else
    { mediaType := chunkData.mediaType, chunkType := chunkData.chunkType,
      seqId := chunkData.seqId, pId := chunkData.pId, dataStr := chunkData.dataStr }

/-- createRequest from moq_sender.js: build the packet then send it. -/
def createRequest (tracks : List (String × Track)) (wtOpen : Bool)
    (st : PubState) (chunkData : ChunkData) : ChunkOutcome × PubState :=
  createSendPromise tracks wtOpen st (createRequestPacket chunkData)

/-- sendChunkToTransport from moq_sender.js: null chunk data is dropped;
when the per-track in-flight map already holds at least
maxFlightRequests keys the chunk is dropped with the verbatim source
message; otherwise the request is created. The listener passes the map
inFlightRequests[type] for the chunk media type, read here from the
state at that key. -/
def sendChunkToTransport (tracks : List (String × Track)) (wtOpen : Bool)
    (st : PubState) (chunkData : Option ChunkData) (maxFlightRequests : Nat) :
    ChunkOutcome × PubState :=
  match chunkData with
  | none => (ChunkOutcome.droppedMsg "chunkData is null", st)
  | some cd =>
    if maxFlightRequests ≤ (st.inFlightRequests cd.mediaType).card then
      (ChunkOutcome.droppedMsg "too many inflight requests", st)
    else
      createRequest tracks wtOpen st cd

/-- The chunk branch of the message listener of moq_sender.js: drop when
the worker is not Running, error when the message type is not a
configured track, drop when the track has no subscribers, otherwise hand
the chunk to sendChunkToTransport with the per-track in-flight map and
bound. The undefined-field defaulting of the listener is value-level and
elided: the claims quantify over the resulting chunk data. -/
def handleChunkMessage (tracks : List (String × Track)) (workerState : StateEnum)
    (wtOpen : Bool) (st : PubState) (cd : ChunkData) : ChunkOutcome × PubState :=
  if workerState ≠ StateEnum.Running then
    (ChunkOutcome.droppedMsg "Dropped chunk because transport is NOT open yet", st)
  else
    match lookupTrack tracks cd.mediaType with
    | none => (ChunkOutcome.errMsg "Invalid message received, type is NOT in tracks", st)
    | some track =>
      match track.numSubscribers with
      | none => (ChunkOutcome.droppedMsg "Dropped chunk because there is NO subscribers for track", st)
      | some n =>
        if n = 0 then
          (ChunkOutcome.droppedMsg "Dropped chunk because there is NO subscribers for track", st)
        else
          sendChunkToTransport tracks wtOpen st (some cd) track.maxInFlightRequests

/-- Observable events of the running publisher engine: a chunk message
from the host, or the settlement of a close promise, which triggers
removeFromInflight. -/
inductive PubEvent
  | chunkMsg (cd : ChunkData)
  | settle (mediaType : String) (pId : Nat)

/-- One engine step in the Running state. -/
def pubStep (tracks : List (String × Track)) (wtOpen : Bool)
    (st : PubState) (e : PubEvent) : Option ChunkOutcome × PubState :=
  match e with
  | PubEvent.chunkMsg cd =>
    let r := handleChunkMessage tracks StateEnum.Running wtOpen st cd
    (some r.1, r.2)
  | PubEvent.settle ty id => (none, removeFromInflight st ty id)

/-- Run of the publisher engine over a list of events, collecting the
chunk outcomes in order. -/
def pubRun (tracks : List (String × Track)) (wtOpen : Bool)
    (st : PubState) : List PubEvent → List (Option ChunkOutcome) × PubState
  | [] => ([], st)
  | e :: rest =>
    let r := pubStep tracks wtOpen st e
    let rr := pubRun tracks wtOpen r.2 rest
    (r.1 :: rr.1, rr.2)

/-- Run of createSendPromise over a list of packets (the dispatcher seen
below the listener gates), collecting the outcomes in order. -/
def runPackets (tracks : List (String × Track)) (wtOpen : Bool)
    (st : PubState) : List PacketData → List ChunkOutcome × PubState
  | [] => ([], st)
  | p :: rest =>
    let r := createSendPromise tracks wtOpen st p
    let rr := runPackets tracks wtOpen r.2 rest
    (r.1 :: rr.1, rr.2)

/-- Run of createRequest over a list of chunk data records. -/
def runChunkRequests (tracks : List (String × Track)) (wtOpen : Bool)
    (st : PubState) : List ChunkData → List ChunkOutcome × PubState
  | [] => ([], st)
  | c :: rest =>
    let r := createRequest tracks wtOpen st c
    let rr := runChunkRequests tracks wtOpen r.2 rest
    (r.1 :: rr.1, rr.2)

/-- The group and object sequence pairs of the objects emitted for one
track id, in emission order. -/
def emittedPairs (outs : List ChunkOutcome) (tid : Nat) : List (Nat × Nat) :=
  outs.filterMap (fun o =>
    match o with
    | ChunkOutcome.sentObj obj =>
      if obj.trackId = tid then some (obj.groupSeq, obj.objSeq) else none
    | _ => none)

/-- Number of outcomes of a run that are drops with the verbatim source
message for an exceeded in-flight window. -/
def countInflightDrops (outs : List (Option ChunkOutcome)) : Nat :=
  outs.countP (fun o => decide (o = some (ChunkOutcome.droppedMsg "too many inflight requests")))

/-- Strict lexicographic order on group and object sequence pairs. -/
def pairLexLt (a b : Nat × Nat) : Prop :=
  a.1 < b.1 ∨ (a.1 = b.1 ∧ a.2 < b.2)

/-- Reflexive lexicographic order on group and object sequence pairs. -/
def pairLexLe (a b : Nat × Nat) : Prop :=
  a.1 < b.1 ∨ (a.1 = b.1 ∧ a.2 ≤ b.2)

instance : DecidableRel pairLexLt := by
  intro a b
  unfold pairLexLt
  infer_instance

instance : DecidableRel pairLexLe := by
  intro a b
  unfold pairLexLe
  infer_instance

/-- One SUBSCRIBE_REQUEST as parsed by moqParseSubscribe: the namespace,
the track name and the authInfo parameter. -/
structure SubscribeRequest where
  trackNamespace : String
  trackName : String
  authInfo : String
  deriving DecidableEq

/-- One SUBSCRIBE_RESPONSE as written by moqSendSubscribeResponse:
namespace, track name, track id and expiry. -/
structure SubscribeResponseMsg where
  trackNamespace : String
  trackName : String
  trackId : Nat
  expires : Nat
  deriving DecidableEq

/-- What one iteration of the subscription loop of moq_sender.js does on
the wire and the event channel: log an error for an unknown track, log
an error for a failed authInfo check, or send a SUBSCRIBE_RESPONSE. -/
inductive SubscribeOutcome
  | errorInvalidTrack
  | errorInvalidAuthInfo
  | response (r : SubscribeResponseMsg)
  deriving DecidableEq

/-- getTrack from moq_sender.js: the first configured track whose
namespace and name both match. -/
def getTrack (tracks : List (String × Track)) (nsp trackName : String) : Option Track :=
  ((tracks.find? (fun p => p.2.trackNamespace == nsp && p.2.trackName == trackName)).map
    (fun p => p.2))

/-- The in-place mutation track.numSubscribers++ of moq_sender.js,
rendered on the association list: the first entry matching the namespace
and name is replaced. -/
def setFirstMatching (tracks : List (String × Track)) (nsp trackName : String)
    (newTrack : Track) : List (String × Track) :=
  match tracks with
  | [] => []
  | (k, td) :: rest =>
    if td.trackNamespace == nsp && td.trackName == trackName then (k, newTrack) :: rest
    else (k, td) :: setFirstMatching rest nsp trackName newTrack

/-- Body of one iteration of startLoopSubscriptionsLoop from
moq_sender.js: resolve the track by namespace and name, reject on a
missing track or an authInfo mismatch with only an error event, and
otherwise increment numSubscribers (starting it at 1 when absent) and
send a SUBSCRIBE_RESPONSE echoing the request namespace and name with
the track id and expires 0. -/
def startLoopSubscriptionsIteration (tracks : List (String × Track))
    (req : SubscribeRequest) : SubscribeOutcome × List (String × Track) :=
  match getTrack tracks req.trackNamespace req.trackName with
  | none => (SubscribeOutcome.errorInvalidTrack, tracks)
  | some track =>
    if track.authInfo ≠ req.authInfo then (SubscribeOutcome.errorInvalidAuthInfo, tracks)
    else
      let newTrack : Track :=
        { track with numSubscribers := some (track.numSubscribers.getD 0 + 1) }
      (SubscribeOutcome.response
        { trackNamespace := req.trackNamespace, trackName := req.trackName,
          trackId := track.id, expires := 0 },
       setFirstMatching tracks req.trackNamespace req.trackName newTrack)

/-- How the message listener of a worker reacted to one host message:
ignored it with an info event because the worker is stopped, handled a
stop message, handled an init message, or fell through to the remaining
handling. -/
inductive ListenerAction
  | ignoredInfo
  | handledStop
  | handledIni
  | handledOther
  deriving DecidableEq

/-- The state-machine shell of the message listener of moq_sender.js:
Created becomes Instantiated; a worker in Stopped ignores the message
with an info event; a stop message moves to Stopped; muxersendini is
only legal in Instantiated and moves to Running exactly when the
initialization succeeds (the connect and handshake outcome is abstracted
into the iniSucceeds flag); other messages fall through to the chunk
path. -/
def moqSenderDispatch (iniSucceeds : Bool) (ws : StateEnum) (msgType : String) :
    StateEnum × ListenerAction :=
  let ws1 := if ws = StateEnum.Created then StateEnum.Instantiated else ws
  if ws1 = StateEnum.Stopped then (ws1, ListenerAction.ignoredInfo)
  else if msgType = "stop" then (StateEnum.Stopped, ListenerAction.handledStop)
  else if msgType = "muxersendini" then
    if ws1 ≠ StateEnum.Instantiated then (ws1, ListenerAction.handledIni)
    else if iniSucceeds then (StateEnum.Running, ListenerAction.handledIni)
    else (ws1, ListenerAction.handledIni)
  else (ws1, ListenerAction.handledOther)

/-- The state-machine shell of the message listener of the downloader
worker: unlike the sender, its first guard moves both Created and
Stopped to Instantiated, so the following Stopped guard can never fire;
a stop message moves to Stopped; downloadersendini is only legal in
Instantiated and moves to Running exactly when initialization succeeds;
other messages fall through with no further effect. -/
def moqDownloaderDispatch (iniSucceeds : Bool) (ws : StateEnum) (msgType : String) :
    StateEnum × ListenerAction :=
  let ws1 :=
    if ws = StateEnum.Created ∨ ws = StateEnum.Stopped then StateEnum.Instantiated else ws
  if ws1 = StateEnum.Stopped then (ws1, ListenerAction.ignoredInfo)
  else if msgType = "stop" then (StateEnum.Stopped, ListenerAction.handledStop)
  else if msgType = "downloadersendini" then
    if ws1 ≠ StateEnum.Instantiated then (ws1, ListenerAction.handledIni)
    else if iniSucceeds then (StateEnum.Running, ListenerAction.handledIni)
    else (ws1, ListenerAction.handledIni)
  else (ws1, ListenerAction.handledOther)

/-- Role parameter values of the SETUP exchange. Modelled from the spec:
the constants MOQ_PARAMETER_ROLE_PUBLISHER, MOQ_PARAMETER_ROLE_SUBSCRIBER
and MOQ_PARAMETER_ROLE_BOTH live in utils/moqt.js, which is not part of
the provided sources; the spec wire grammar gives PUBLISHER 1,
SUBSCRIBER 2, BOTH 3. -/
def MOQ_PARAMETER_ROLE_PUBLISHER : Nat := 1

/-- Role value SUBSCRIBER, see MOQ_PARAMETER_ROLE_PUBLISHER. -/
def MOQ_PARAMETER_ROLE_SUBSCRIBER : Nat := 2

/-- Role value BOTH, see MOQ_PARAMETER_ROLE_PUBLISHER. -/
def MOQ_PARAMETER_ROLE_BOTH : Nat := 3

/-- A parsed SETUP_OK: protocol version and the role parameter. -/
structure SetupResponse where
  version : Nat
  role : Nat
  deriving DecidableEq

/-- Errors thrown during session establishment, one constructor per
throw site of moqCreatePublisherSession and moqCreateSubscriberSession. -/
inductive HandshakeErr
  | roleNotSupported
  | announceNamespaceMismatch (expected got : String)
  | subscribeMismatch (expectedNamespace expectedName gotNamespace gotName : String)
  deriving DecidableEq

/-- The ANNOUNCE loop of moqCreatePublisherSession: walk the configured
tracks in entry order; a namespace already announced is skipped; a fresh
namespace is announced and the ANNOUNCE_OK reply (modelled as a function
from the announced namespace to the namespace echoed by the server) must
echo it back, otherwise the session throws. Returns the list of
announced namespaces. -/
def announceAll (replyNamespace : String → String) :
    List (String × Track) → List String → Except HandshakeErr (List String)
  | [], announced => Except.ok announced
  | (_, trackData) :: rest, announced =>
    if trackData.trackNamespace ∈ announced then announceAll replyNamespace rest announced
    else
      let got := replyNamespace trackData.trackNamespace
      if trackData.trackNamespace ≠ got then
        Except.error (HandshakeErr.announceNamespaceMismatch trackData.trackNamespace got)
      else announceAll replyNamespace rest (announced ++ [trackData.trackNamespace])

/-- moqCreatePublisherSession from moq_sender.js: after sending SETUP
with role PUBLISHER, the SETUP_OK role must be SUBSCRIBER or BOTH or the
session throws; then every distinct namespace of the configured tracks
is announced once. -/
def moqCreatePublisherSession (tracks : List (String × Track))
    (setupResponse : SetupResponse) (replyNamespace : String → String) :
    Except HandshakeErr (List String) :=
  if setupResponse.role ≠ MOQ_PARAMETER_ROLE_SUBSCRIBER ∧
      setupResponse.role ≠ MOQ_PARAMETER_ROLE_BOTH then
    Except.error HandshakeErr.roleNotSupported
  else
    announceAll replyNamespace tracks []

/-- One SUBSCRIBE_RESPONSE as consumed by the downloader handshake. -/
structure SubscribeReplyWire where
  trackNamespace : String
  trackName : String
  trackId : Nat
  deriving DecidableEq

/-- The SUBSCRIBE loop of moqCreateSubscriberSession in the downloader
worker: each configured track is subscribed; the reply (modelled as a
function of the requested namespace and name) must echo both back or the
session throws; on success the track id is updated from the reply. -/
def subscribeAll (reply : String → String → SubscribeReplyWire) :
    List (String × Track) → Except HandshakeErr (List (String × Track))
  | [] => Except.ok []
  | (tt, td) :: rest =>
    let resp := reply td.trackNamespace td.trackName
    if td.trackNamespace ≠ resp.trackNamespace ∨ td.trackName ≠ resp.trackName then
      Except.error (HandshakeErr.subscribeMismatch td.trackNamespace td.trackName
        resp.trackNamespace resp.trackName)
    else
      match subscribeAll reply rest with
      | Except.error e => Except.error e
      | Except.ok l => Except.ok ((tt, { td with id := resp.trackId }) :: l)

/-- moqCreateSubscriberSession from the downloader worker: after sending
SETUP with role SUBSCRIBER, the SETUP_OK role must be PUBLISHER or BOTH
or the session throws; then every configured track is subscribed and its
id updated from the reply. -/
def moqCreateSubscriberSession (tracks : List (String × Track))
    (setupResponse : SetupResponse) (reply : String → String → SubscribeReplyWire) :
    Except HandshakeErr (List (String × Track)) :=
  if setupResponse.role ≠ MOQ_PARAMETER_ROLE_PUBLISHER ∧
      setupResponse.role ≠ MOQ_PARAMETER_ROLE_BOTH then
    Except.error HandshakeErr.roleNotSupported
  else
    subscribeAll reply tracks

/-- getAllInflightRequestsArray from moq_sender.js, with Object.values of
each per-track map supplied as a function from the track kind to the
list of pending promise ids. The source accumulates with
ret = ret.concat(ret, values), which appends the accumulator to itself
before the new values. -/
def getAllInflightRequestsArray (tracks : List (String × Track))
    (inFlightValues : String → List Nat) : List Nat :=
  tracks.foldl (fun ret p => ret ++ ret ++ inFlightValues p.1) []

/-- Modelled from the spec: the union semantics the specification
assigns to getAllInflightRequestsArray, namely the concatenation of the
per-track pending handles, each appearing once. Stated for comparison
with the source accumulation above. -/
def getAllInflightRequestsArrayUnion (tracks : List (String × Track))
    (inFlightValues : String → List Nat) : List Nat :=
  tracks.foldl (fun ret p => ret ++ inFlightValues p.1) []

/-! Concrete fixtures used by the closed instances below. -/

/-- A hipri audio track with one subscriber, as in the moqTracks example. -/
def audioTrackFix : Track :=
  { id := 0, trackNamespace := "ns", trackName := "a", authInfo := "secret",
    isHipri := true, maxInFlightRequests := 100, numSubscribers := some 1 }

/-- A lopri video track with one subscriber. -/
def videoTrackFix : Track :=
  { id := 1, trackNamespace := "ns", trackName := "v", authInfo := "secret",
    isHipri := false, maxInFlightRequests := 50, numSubscribers := some 1 }

/-- A two-track configuration. -/
def tracksFix : List (String × Track) :=
  [( "audio", audioTrackFix ), ( "video", videoTrackFix )]

/-- A key packet with negative seqId on the audio track. -/
def pktNegSeq : PacketData :=
  { mediaType := "audio", chunkType := "key", seqId := -1, pId := 0, dataStr := "d" }

/-- A key packet with seqId 2 on the audio track. -/
def pktSeq2 : PacketData :=
  { mediaType := "audio", chunkType := "key", seqId := 2, pId := 0, dataStr := "d" }

/-- A key packet with seqId 3 on the audio track. -/
def pktSeq3 : PacketData :=
  { mediaType := "audio", chunkType := "key", seqId := 3, pId := 1, dataStr := "d" }

/-- A delta packet on the video track. -/
def pktFirstDelta : PacketData :=
  { mediaType := "video", chunkType := "delta", seqId := 0, pId := 7, dataStr := "d" }

/-- Closed form of the modelled IEEE addition of half MAX_SAFE_INTEGER:
the offset is 4503599627370495 when ret is 0 or odd and 4503599627370496
when ret is even and nonzero. -/
theorem jsFloorAddHalfMaxSafe_eq (ret : Int) :
    jsFloorAddHalfMaxSafe ret =
      (if ret = 0 ∨ ret % 2 = 1 then ret + 4503599627370495
       else ret + 4503599627370496) := by
  unfold jsFloorAddHalfMaxSafe halfMaxSafeFloor
  by_cases h0 : ret = 0
  · rw [if_pos h0, if_pos (Or.inl h0)]
    omega
  · rw [if_neg h0]
    by_cases h2 : (ret + 4503599627370495) % 2 = 0
    · rw [if_pos h2, if_pos (Or.inr (by omega))]
    · rw [if_neg h2, if_neg (by omega)]
      omega

/-- addToInflight never touches the per-track sequence state. -/
theorem addToInflight_moqPublisherState (st : PubState) (ty : String) (p : Nat) :
    (addToInflight st ty p).moqPublisherState = st.moqPublisherState := by
  unfold addToInflight
  split <;> rfl

/-- C3, counterexample: the source maps a negative seqId to
MAX_SAFE_INTEGER = 9007199254740991, not to U64_MAX =
18446744073709551615 as claimed, and the claimed hipri formula
seqId + floor(MAX_SAFE / 2) already fails at seqId 2, where the IEEE
addition rounds half to even and yields one more than claimed. -/
theorem sendOrderClaimCounterexample :
    moqCalculateSendOrder tracksFix pktNegSeq = 9007199254740991 ∧
    (9007199254740991 : Int) ≠ 18446744073709551615 ∧
    moqCalculateSendOrder tracksFix pktSeq2 = 4503599627370498 ∧
    (4503599627370498 : Int) ≠ 2 + 4503599627370495 := by
  exact ⟨by decide, by decide, by decide, by decide⟩

/-- C3, amended: moqCalculateSendOrder maps a negative seqId to
MAX_SAFE_INTEGER = 2 ^ 53 - 1; on a hipri track a non-negative seqId is
offset by half of MAX_SAFE_INTEGER under the IEEE-754 rounding of the
source expression, namely plus 4503599627370495 when the seqId is 0 or
odd and plus 4503599627370496 when it is even and positive (faithful for
seqId up to 2 ^ 52); on a non-hipri track the seqId is returned
unchanged. -/
theorem sendOrderFormulaAmended (tracks : List (String × Track)) (packet : PacketData)
    (track : Track) (h : lookupTrack tracks packet.mediaType = some track) :
    (packet.seqId < 0 → moqCalculateSendOrder tracks packet = 2 ^ 53 - 1) ∧
    (0 ≤ packet.seqId → track.isHipri = true →
      moqCalculateSendOrder tracks packet =
        (if packet.seqId = 0 ∨ packet.seqId % 2 = 1 then packet.seqId + 4503599627370495
         else packet.seqId + 4503599627370496)) ∧
    (0 ≤ packet.seqId → track.isHipri = false →
      moqCalculateSendOrder tracks packet = packet.seqId) := by
  refine ⟨?_, ?_, ?_⟩
  · intro hneg
    simp only [moqCalculateSendOrder, maxSafeInteger]
    rw [if_pos hneg]
  · intro hpos hhip
    have hni : ¬ packet.seqId < 0 := by omega
    simp only [moqCalculateSendOrder, h, Option.map_some', Option.getD_some]
    rw [if_neg hni, if_pos hhip]
    exact jsFloorAddHalfMaxSafe_eq packet.seqId
  · intro hpos hlow
    have hni : ¬ packet.seqId < 0 := by omega
    simp only [moqCalculateSendOrder, h, Option.map_some', Option.getD_some]
    rw [if_neg hni, if_neg (by simp [hlow])]

/-- C3, witness: the amended formula evaluated on the audio track at
seqId 3 (odd, offset 4503599627370495). -/
theorem sendOrderFormulaAmendedWitness :
    moqCalculateSendOrder tracksFix pktSeq3 = 3 + 4503599627370495 := by
  have hth := sendOrderFormulaAmended tracksFix pktSeq3 audioTrackFix (by decide)
  have h2 := hth.2.1 (by decide) (by decide)
  rw [h2]
  decide

/-- C4: strict monotonicity of the send order in seqId fails on a hipri
track: seqId 2 and seqId 3 both evaluate to 4503599627370498, because
the IEEE-754 addition of Number.MAX_SAFE_INTEGER / 2 rounds both
half-way sums to the same even integer, while the claim requires the
send order at seqId 3 to be strictly greater than at seqId 2. -/
theorem sendOrderHipriCollision :
    moqCalculateSendOrder tracksFix pktSeq2 = 4503599627370498 ∧
    moqCalculateSendOrder tracksFix pktSeq3 = 4503599627370498 ∧
    pktSeq2.seqId < pktSeq3.seqId := by
  exact ⟨by decide, by decide, by decide⟩

/-- C5, counterexample: a first delta chunk is dropped, but the reason
the source attaches is the verbatim message about the first object not
being a delta, not the claimed text first object must be key. -/
theorem firstDeltaReasonCounterexample :
    (createSendPromise tracksFix true initPubState pktFirstDelta).1 =
      ChunkOutcome.droppedMsg "Dropped chunk because first object can not be delta, data: d" ∧
    "Dropped chunk because first object can not be delta, data: d" ≠
      "first object must be key" := by
  exact ⟨by decide, by decide⟩

/-- C5, amended: when no publisher state exists for the track and the
arriving chunk is a delta, the chunk is dropped with the source reason
about the first object not being a delta, no object is written and the
state is completely untouched; otherwise the first key creates the state
(groupSeq 0, objectSeq 0), which the key rule immediately advances, so
the first emitted object carries the pair (1, 0) and the stored state
becomes (1, 1). -/
theorem firstObjectMustBeKeyAmended (tracks : List (String × Track)) (st : PubState)
    (packet : PacketData) (track : Track)
    (h : lookupTrack tracks packet.mediaType = some track)
    (hnone : st.moqPublisherState track.id = none) :
    (packet.chunkType = "delta" →
      createSendPromise tracks true st packet =
        (ChunkOutcome.droppedMsg
          ("Dropped chunk because first object can not be delta, data: " ++ packet.dataStr),
         st)) ∧
    (packet.chunkType ≠ "delta" →
      (createSendPromise tracks true st packet).1 =
        ChunkOutcome.sentObj
          { trackId := track.id, groupSeq := 1, objSeq := 0,
            sendOrder := moqCalculateSendOrder tracks packet } ∧
      (createSendPromise tracks true st packet).2.moqPublisherState track.id =
        some { currentGroupSeq := 1, currentObjectSeq := 1 }) := by
  constructor
  · intro hdelta
    simp only [createSendPromise, h]
    rw [if_neg (by simp), if_pos ⟨by simp [hnone], hdelta⟩]
  · intro hkey
    have hmain : createSendPromise tracks true st packet =
        sendPacketObject tracks st track packet := by
      simp only [createSendPromise, h]
      rw [if_neg (by simp), if_neg (by
        intro hcon
        exact hkey hcon.2)]
    rw [hmain]
    simp [sendPacketObject, hnone, addToInflight_moqPublisherState, hkey, createTrackState]

/-- C5, witness: the amended statement evaluated on the audio track with
no prior state: the key chunk with seqId 2 is emitted as group 1,
object 0. -/
theorem firstObjectMustBeKeyAmendedWitness :
    (createSendPromise tracksFix true initPubState pktSeq2).1 =
      ChunkOutcome.sentObj
        { trackId := 0, groupSeq := 1, objSeq := 0, sendOrder := 4503599627370498 } := by
  have hth := firstObjectMustBeKeyAmended tracksFix initPubState pktSeq2 audioTrackFix
    (by decide) rfl
  have h2 := (hth.2 (by decide)).1
  rw [h2]
  decide

/-- C7, counterexample: in the downloader worker a message received in
Stopped does not leave the state Stopped: the first listener guard moves
Stopped to Instantiated, so a downloadersendini message received after
stop brings the worker back to Running instead of being ignored. -/
theorem downloaderStoppedNotTerminal :
    moqDownloaderDispatch true StateEnum.Stopped "downloadersendini" =
      (StateEnum.Running, ListenerAction.handledIni) ∧
    StateEnum.Running ≠ StateEnum.Stopped := by
  exact ⟨by decide, by decide⟩

/-- C7, amended: only the publisher engine treats Stopped as terminal:
every host message received by the sender in Stopped leaves the state
Stopped and is ignored with an info event; the downloader handles a
message received in Stopped exactly as if the worker were Instantiated,
and in particular an init message can bring it back to Running. -/
theorem stoppedTerminalityAmended :
    (∀ (b : Bool) (t : String),
      moqSenderDispatch b StateEnum.Stopped t =
        (StateEnum.Stopped, ListenerAction.ignoredInfo)) ∧
    (∀ (b : Bool) (t : String),
      moqDownloaderDispatch b StateEnum.Stopped t =
        moqDownloaderDispatch b StateEnum.Instantiated t) ∧
    (moqDownloaderDispatch true StateEnum.Stopped "downloadersendini").1 =
      StateEnum.Running := by
  exact ⟨fun b t => rfl, fun b t => rfl, by decide⟩

/-- Pending promise ids per track used by the in-flight array instance:
one handle on the audio track and one on the video track. -/
def inFlightValuesFix : String → List Nat := fun ty =>
  if ty = "audio" then [1] else if ty = "video" then [2] else []

/-- C9: getAllInflightRequestsArray concatenates the accumulator into
itself, so with one pending handle on each of two tracks the source
returns the audio handle twice, while the union semantics the spec
assigns to the function returns each pending handle exactly once. -/
theorem getAllInflightDuplicationBug :
    getAllInflightRequestsArray tracksFix inFlightValuesFix = [1, 1, 2] ∧
    getAllInflightRequestsArrayUnion tracksFix inFlightValuesFix = [1, 2] ∧
    ¬ (getAllInflightRequestsArray tracksFix inFlightValuesFix).Nodup := by
  exact ⟨by decide, by decide, by decide⟩

/-- Replacing the first track matching a namespace and name keeps it
findable: getTrack on the updated list returns the replacement, provided
the replacement still carries the same namespace and name. -/
theorem getTrack_setFirstMatching (tracks : List (String × Track)) (nsp nm : String)
    (nt : Track) (hns : nt.trackNamespace = nsp) (hnm : nt.trackName = nm)
    (hfound : (getTrack tracks nsp nm).isSome = true) :
    getTrack (setFirstMatching tracks nsp nm nt) nsp nm = some nt := by
  induction tracks with
  | nil => simp [getTrack] at hfound
  | cons p rest ih =>
    by_cases hc : (p.2.trackNamespace == nsp && p.2.trackName == nm) = true
    · simp only [setFirstMatching, hc, if_true]
      simp [getTrack, List.find?, hns, hnm]
    · have hrest : (getTrack rest nsp nm).isSome = true := by
        simpa [getTrack, List.find?_cons, hc] using hfound
      simp only [setFirstMatching, hc, if_false]
      simpa [getTrack, List.find?_cons, hc] using ih hrest

/-- C6: one iteration of the subscription loop of the publisher: when
the authInfo of the request does not match the track, the track list is
returned unchanged (no counter moves) and only an error event is
produced; when it matches, numSubscribers of that track is incremented,
starting at 1 when absent, and a SUBSCRIBE_RESPONSE echoing the request
namespace and name together with the track id and expires 0 is sent. -/
theorem subscribeAuthGate (tracks : List (String × Track)) (req : SubscribeRequest)
    (track : Track)
    (h : getTrack tracks req.trackNamespace req.trackName = some track) :
    (track.authInfo ≠ req.authInfo →
      startLoopSubscriptionsIteration tracks req =
        (SubscribeOutcome.errorInvalidAuthInfo, tracks)) ∧
    (track.authInfo = req.authInfo →
      (startLoopSubscriptionsIteration tracks req).1 =
        SubscribeOutcome.response
          { trackNamespace := req.trackNamespace, trackName := req.trackName,
            trackId := track.id, expires := 0 } ∧
      getTrack (startLoopSubscriptionsIteration tracks req).2
          req.trackNamespace req.trackName =
        some { track with numSubscribers := some (track.numSubscribers.getD 0 + 1) }) := by
  constructor
  · intro hne
    simp only [startLoopSubscriptionsIteration, h]
    rw [if_pos hne]
  · intro heq
    have hmain : startLoopSubscriptionsIteration tracks req =
        (SubscribeOutcome.response
          { trackNamespace := req.trackNamespace, trackName := req.trackName,
            trackId := track.id, expires := 0 },
         setFirstMatching tracks req.trackNamespace req.trackName
           { track with numSubscribers := some (track.numSubscribers.getD 0 + 1) }) := by
      simp only [startLoopSubscriptionsIteration, h]
      rw [if_neg (by simp [heq])]
    rw [hmain]
    refine ⟨rfl, ?_⟩
    obtain ⟨p, hfind, hp2⟩ := Option.map_eq_some'.mp h
    have hpred := List.find?_some hfind
    rw [hp2] at hpred
    simp only [Bool.and_eq_true, beq_iff_eq] at hpred
    exact getTrack_setFirstMatching tracks req.trackNamespace req.trackName _
      hpred.1 hpred.2 (by rw [h]; rfl)

/-- A subscribe request for namespace ns, name a with a wrong secret. -/
def reqBadFix : SubscribeRequest :=
  { trackNamespace := "ns", trackName := "a", authInfo := "bad" }

/-- A subscribe request for namespace ns, name a with the right secret. -/
def reqOkFix : SubscribeRequest :=
  { trackNamespace := "ns", trackName := "a", authInfo := "secret" }

/-- C6, witness: on the two-track configuration a wrong secret leaves
the configuration unchanged with only an error, and the right secret
yields the echoed SUBSCRIBE_RESPONSE. -/
theorem subscribeAuthGateWitness :
    startLoopSubscriptionsIteration tracksFix reqBadFix =
      (SubscribeOutcome.errorInvalidAuthInfo, tracksFix) ∧
    (startLoopSubscriptionsIteration tracksFix reqOkFix).1 =
      SubscribeOutcome.response
        { trackNamespace := "ns", trackName := "a", trackId := 0, expires := 0 } := by
  have h1 := (subscribeAuthGate tracksFix reqBadFix audioTrackFix (by decide)).1 (by decide)
  have h2 := ((subscribeAuthGate tracksFix reqOkFix audioTrackFix (by decide)).2 (by decide)).1
  exact ⟨h1, h2⟩

/-! Transitivity toolkit for the lexicographic pair orders. -/

theorem pairLexLe_trans {a b c : Nat × Nat} (h1 : pairLexLe a b) (h2 : pairLexLe b c) :
    pairLexLe a c := by
  unfold pairLexLe at *
  omega

theorem pairLexLt_of_lt_of_le {a b c : Nat × Nat} (h1 : pairLexLt a b) (h2 : pairLexLe b c) :
    pairLexLt a c := by
  unfold pairLexLt pairLexLe at *
  omega

theorem pairLexLe_obj_succ (g o : Nat) : pairLexLe (g, o) (g, o + 1) := by
  unfold pairLexLe
  simp

theorem pairLexLt_obj_succ (g o : Nat) : pairLexLt (g, o) (g, o + 1) := by
  unfold pairLexLt
  simp

/-- Characterization of the dispatcher tail: sendPacketObject always
emits one object for the track, stores the emitted pair advanced by one
object, leaves the sequence state of every other track id alone, and the
emitted pair is lexicographically at or above the pair stored before the
call. -/
theorem sendPacketObject_char (tracks : List (String × Track)) (st : PubState)
    (track : Track) (packet : PacketData) :
    ∃ g o,
      (sendPacketObject tracks st track packet).1 =
        ChunkOutcome.sentObj
          { trackId := track.id, groupSeq := g, objSeq := o,
            sendOrder := moqCalculateSendOrder tracks packet } ∧
      (∀ tid, tid ≠ track.id →
        (sendPacketObject tracks st track packet).2.moqPublisherState tid =
          st.moqPublisherState tid) ∧
      (sendPacketObject tracks st track packet).2.moqPublisherState track.id =
        some { currentGroupSeq := g, currentObjectSeq := o + 1 } ∧
      (∀ ts, st.moqPublisherState track.id = some ts →
        pairLexLe (ts.currentGroupSeq, ts.currentObjectSeq) (g, o)) := by
  rcases hs : st.moqPublisherState track.id with _ | ts
  · by_cases hd : packet.chunkType = "delta"
    · refine ⟨0, 0, ?_, ?_, ?_, ?_⟩
      · simp [sendPacketObject, hs, addToInflight_moqPublisherState, hd, createTrackState]
      · intro tid hne
        simp [sendPacketObject, hs, addToInflight_moqPublisherState, hd, hne]
      · simp [sendPacketObject, hs, addToInflight_moqPublisherState, hd, createTrackState]
      · intro ts2 hts2
        exact absurd hts2 (by simp)
    · refine ⟨1, 0, ?_, ?_, ?_, ?_⟩
      · simp [sendPacketObject, hs, addToInflight_moqPublisherState, hd, createTrackState]
      · intro tid hne
        simp [sendPacketObject, hs, addToInflight_moqPublisherState, hd, hne]
      · simp [sendPacketObject, hs, addToInflight_moqPublisherState, hd, createTrackState]
      · intro ts2 hts2
        exact absurd hts2 (by simp)
  · by_cases hd : packet.chunkType = "delta"
    · refine ⟨ts.currentGroupSeq, ts.currentObjectSeq, ?_, ?_, ?_, ?_⟩
      · simp [sendPacketObject, hs, addToInflight_moqPublisherState, hd]
      · intro tid hne
        simp [sendPacketObject, hs, addToInflight_moqPublisherState, hd, hne]
      · simp [sendPacketObject, hs, addToInflight_moqPublisherState, hd]
      · intro ts2 hts2
        cases hts2
        exact Or.inr ⟨rfl, Nat.le_refl _⟩
    · refine ⟨ts.currentGroupSeq + 1, 0, ?_, ?_, ?_, ?_⟩
      · simp [sendPacketObject, hs, addToInflight_moqPublisherState, hd]
      · intro tid hne
        simp [sendPacketObject, hs, addToInflight_moqPublisherState, hd, hne]
      · simp [sendPacketObject, hs, addToInflight_moqPublisherState, hd]
      · intro ts2 hts2
        cases hts2
        exact Or.inl (Nat.lt_succ_self _)

/-- Characterization of createSendPromise: either nothing is emitted and
the whole state is returned unchanged, or one object is emitted for the
track of the packet media type, with the stored pair advanced and the
emitted pair at or above the stored one. -/
theorem createSendPromise_char (tracks : List (String × Track)) (wtOpen : Bool)
    (st : PubState) (packet : PacketData) :
    ((createSendPromise tracks wtOpen st packet).2 = st ∧
      ∀ obj, (createSendPromise tracks wtOpen st packet).1 ≠ ChunkOutcome.sentObj obj) ∨
    (∃ track g o,
      lookupTrack tracks packet.mediaType = some track ∧
      (createSendPromise tracks wtOpen st packet).1 =
        ChunkOutcome.sentObj
          { trackId := track.id, groupSeq := g, objSeq := o,
            sendOrder := moqCalculateSendOrder tracks packet } ∧
      (∀ tid, tid ≠ track.id →
        (createSendPromise tracks wtOpen st packet).2.moqPublisherState tid =
          st.moqPublisherState tid) ∧
      (createSendPromise tracks wtOpen st packet).2.moqPublisherState track.id =
        some { currentGroupSeq := g, currentObjectSeq := o + 1 } ∧
      (∀ ts, st.moqPublisherState track.id = some ts →
        pairLexLe (ts.currentGroupSeq, ts.currentObjectSeq) (g, o))) := by
  by_cases hw : wtOpen = false
  · have heq : createSendPromise tracks wtOpen st packet =
        (ChunkOutcome.errMsg "request not send because transport is NOT open", st) := by
      simp only [createSendPromise]
      rw [if_pos hw]
    left
    rw [heq]
    exact ⟨rfl, by intro obj h; simp at h⟩
  · rcases hl : lookupTrack tracks packet.mediaType with _ | track
    · have heq : createSendPromise tracks wtOpen st packet =
          (ChunkOutcome.errMsg "OBJECT mediaType NOT supported, no track found", st) := by
        simp only [createSendPromise, hl]
        rw [if_neg hw]
      left
      rw [heq]
      exact ⟨rfl, by intro obj h; simp at h⟩
    · by_cases hg : (st.moqPublisherState track.id).isNone ∧ packet.chunkType = "delta"
      · have heq : createSendPromise tracks wtOpen st packet =
            (ChunkOutcome.droppedMsg
              ("Dropped chunk because first object can not be delta, data: " ++ packet.dataStr),
             st) := by
          simp only [createSendPromise, hl]
          rw [if_neg hw, if_pos hg]
        left
        rw [heq]
        exact ⟨rfl, by intro obj h; simp at h⟩
      · right
        have heq : createSendPromise tracks wtOpen st packet =
            sendPacketObject tracks st track packet := by
          simp only [createSendPromise, hl]
          rw [if_neg hw, if_neg hg]
        obtain ⟨g, o, h1, h2, h3, h4⟩ := sendPacketObject_char tracks st track packet
        rw [heq]
        exact ⟨track, g, o, rfl, h1, h2, h3, h4⟩

/-- Every pair emitted for a track during a run sits lexicographically
at or above the pair stored for that track when the run started. -/
theorem runPackets_lb (tracks : List (String × Track)) (wtOpen : Bool) (tid : Nat) :
    ∀ (ps : List PacketData) (st : PubState) (g o : Nat),
      st.moqPublisherState tid = some { currentGroupSeq := g, currentObjectSeq := o } →
      ∀ pr ∈ emittedPairs (runPackets tracks wtOpen st ps).1 tid, pairLexLe (g, o) pr := by
  intro ps
  induction ps with
  | nil =>
    intro st g o hst pr hpr
    simp [runPackets, emittedPairs] at hpr
  | cons p rest ih =>
    intro st g o hst pr hpr
    rcases createSendPromise_char tracks wtOpen st p with ⟨hse, hnot⟩ |
      ⟨track, g1, o1, hl, hout, hoth, hsame, hle⟩
    · rcases ho : (createSendPromise tracks wtOpen st p).1 with m | obj | m
      · have hrw : emittedPairs (runPackets tracks wtOpen st (p :: rest)).1 tid =
            emittedPairs
              (runPackets tracks wtOpen (createSendPromise tracks wtOpen st p).2 rest).1 tid := by
          simp only [runPackets, emittedPairs, List.filterMap_cons, ho]
        rw [hrw, hse] at hpr
        exact ih st g o hst pr hpr
      · exact absurd ho (hnot obj)
      · have hrw : emittedPairs (runPackets tracks wtOpen st (p :: rest)).1 tid =
            emittedPairs
              (runPackets tracks wtOpen (createSendPromise tracks wtOpen st p).2 rest).1 tid := by
          simp only [runPackets, emittedPairs, List.filterMap_cons, ho]
        rw [hrw, hse] at hpr
        exact ih st g o hst pr hpr
    · by_cases htid : track.id = tid
      · subst htid
        have hrw : emittedPairs (runPackets tracks wtOpen st (p :: rest)).1 track.id =
            (g1, o1) :: emittedPairs
              (runPackets tracks wtOpen (createSendPromise tracks wtOpen st p).2 rest).1
              track.id := by
          simp only [runPackets, emittedPairs, List.filterMap_cons, hout]
          simp
        rw [hrw] at hpr
        rcases List.mem_cons.mp hpr with hhd | htl
        · subst hhd
          exact hle { currentGroupSeq := g, currentObjectSeq := o } hst
        · have hrest := ih (createSendPromise tracks wtOpen st p).2 g1 (o1 + 1) hsame pr htl
          have hstep : pairLexLe (g, o) (g1, o1) :=
            hle { currentGroupSeq := g, currentObjectSeq := o } hst
          exact pairLexLe_trans hstep (pairLexLe_trans (pairLexLe_obj_succ g1 o1) hrest)
      · have hrw : emittedPairs (runPackets tracks wtOpen st (p :: rest)).1 tid =
            emittedPairs
              (runPackets tracks wtOpen (createSendPromise tracks wtOpen st p).2 rest).1 tid := by
          simp only [runPackets, emittedPairs, List.filterMap_cons, hout]
          simp [htid]
        rw [hrw] at hpr
        exact ih (createSendPromise tracks wtOpen st p).2 g o
          (by rw [hoth tid (fun h => htid h.symm), hst]) pr hpr

/-- The sequence of pairs emitted for any track id during any run of
the dispatcher is strictly lexicographically increasing. -/
theorem runPackets_pairwise (tracks : List (String × Track)) (wtOpen : Bool) (tid : Nat) :
    ∀ (ps : List PacketData) (st : PubState),
      (emittedPairs (runPackets tracks wtOpen st ps).1 tid).Pairwise pairLexLt := by
  intro ps
  induction ps with
  | nil =>
    intro st
    simp [runPackets, emittedPairs]
  | cons p rest ih =>
    intro st
    rcases createSendPromise_char tracks wtOpen st p with ⟨hse, hnot⟩ |
      ⟨track, g1, o1, hl, hout, hoth, hsame, hle⟩
    · rcases ho : (createSendPromise tracks wtOpen st p).1 with m | obj | m
      · have hrw : emittedPairs (runPackets tracks wtOpen st (p :: rest)).1 tid =
            emittedPairs
              (runPackets tracks wtOpen (createSendPromise tracks wtOpen st p).2 rest).1 tid := by
          simp only [runPackets, emittedPairs, List.filterMap_cons, ho]
        rw [hrw]
        exact ih (createSendPromise tracks wtOpen st p).2
      · exact absurd ho (hnot obj)
      · have hrw : emittedPairs (runPackets tracks wtOpen st (p :: rest)).1 tid =
            emittedPairs
              (runPackets tracks wtOpen (createSendPromise tracks wtOpen st p).2 rest).1 tid := by
          simp only [runPackets, emittedPairs, List.filterMap_cons, ho]
        rw [hrw]
        exact ih (createSendPromise tracks wtOpen st p).2
    · by_cases htid : track.id = tid
      · subst htid
        have hrw : emittedPairs (runPackets tracks wtOpen st (p :: rest)).1 track.id =
            (g1, o1) :: emittedPairs
              (runPackets tracks wtOpen (createSendPromise tracks wtOpen st p).2 rest).1
              track.id := by
          simp only [runPackets, emittedPairs, List.filterMap_cons, hout]
          simp
        rw [hrw]
        refine List.Pairwise.cons ?_ (ih (createSendPromise tracks wtOpen st p).2)
        intro pr hpr
        have hrest := runPackets_lb tracks wtOpen track.id rest
          (createSendPromise tracks wtOpen st p).2 g1 (o1 + 1) hsame pr hpr
        exact pairLexLt_of_lt_of_le (pairLexLt_obj_succ g1 o1) hrest
      · have hrw : emittedPairs (runPackets tracks wtOpen st (p :: rest)).1 tid =
            emittedPairs
              (runPackets tracks wtOpen (createSendPromise tracks wtOpen st p).2 rest).1 tid := by
          simp only [runPackets, emittedPairs, List.filterMap_cons, hout]
          simp [htid]
        rw [hrw]
        exact ih (createSendPromise tracks wtOpen st p).2

/-- C2: with existing state (g, o) for the track, a non-delta chunk
advances the group to g + 1 and resets the object sequence, the emitted
object carries the pre-increment pair (g + 1, 0) and the stored state
afterwards is (g + 1, 1); a delta chunk reuses the pair (g, o) and the
stored state afterwards is (g, o + 1); consequently, over any run of
the dispatcher, the pairs emitted for each track id are strictly
lexicographically increasing. -/
theorem groupObjectSequencing :
    (∀ tracks (st : PubState) (packet : PacketData) track ts,
      lookupTrack tracks packet.mediaType = some track →
      st.moqPublisherState track.id = some ts →
      packet.chunkType ≠ "delta" →
      (createSendPromise tracks true st packet).1 =
        ChunkOutcome.sentObj
          { trackId := track.id, groupSeq := ts.currentGroupSeq + 1, objSeq := 0,
            sendOrder := moqCalculateSendOrder tracks packet } ∧
      (createSendPromise tracks true st packet).2.moqPublisherState track.id =
        some { currentGroupSeq := ts.currentGroupSeq + 1, currentObjectSeq := 1 }) ∧
    (∀ tracks (st : PubState) (packet : PacketData) track ts,
      lookupTrack tracks packet.mediaType = some track →
      st.moqPublisherState track.id = some ts →
      packet.chunkType = "delta" →
      (createSendPromise tracks true st packet).1 =
        ChunkOutcome.sentObj
          { trackId := track.id, groupSeq := ts.currentGroupSeq,
            objSeq := ts.currentObjectSeq,
            sendOrder := moqCalculateSendOrder tracks packet } ∧
      (createSendPromise tracks true st packet).2.moqPublisherState track.id =
        some { currentGroupSeq := ts.currentGroupSeq,
               currentObjectSeq := ts.currentObjectSeq + 1 }) ∧
    (∀ tracks (wtOpen : Bool) (st : PubState) (ps : List PacketData) (tid : Nat),
      (emittedPairs (runPackets tracks wtOpen st ps).1 tid).Pairwise pairLexLt) := by
  refine ⟨?_, ?_, ?_⟩
  · intro tracks st packet track ts hl hst hk
    have heq : createSendPromise tracks true st packet =
        sendPacketObject tracks st track packet := by
      simp only [createSendPromise, hl]
      rw [if_neg (by simp), if_neg (by
        intro hcon
        exact hk hcon.2)]
    rw [heq]
    constructor
    · simp [sendPacketObject, hst, hk]
    · simp [sendPacketObject, hst, hk, addToInflight_moqPublisherState]
  · intro tracks st packet track ts hl hst hd
    have heq : createSendPromise tracks true st packet =
        sendPacketObject tracks st track packet := by
      simp only [createSendPromise, hl]
      rw [if_neg (by simp), if_neg (by
        intro hcon
        rw [hst] at hcon
        exact absurd hcon.1 (by simp))]
    rw [heq]
    constructor
    · simp [sendPacketObject, hst, hd]
    · simp [sendPacketObject, hst, hd, addToInflight_moqPublisherState]
  · intro tracks wtOpen st ps tid
    exact runPackets_pairwise tracks wtOpen tid ps st

/-- Publisher state fixture: track id 0 already at group 3, object 2. -/
def stSomeFix : PubState :=
  { moqPublisherState := fun tid =>
      if tid = 0 then some { currentGroupSeq := 3, currentObjectSeq := 2 } else none,
    inFlightRequests := fun _ => (∅ : Finset Nat) }

/-- C2, witness: on the audio track with stored state (3, 2), the key
chunk with seqId 2 is emitted as (4, 0), and a delta chunk with seqId 3
after it would have been emitted as (3, 2) from the original state. -/
theorem groupObjectSequencingWitness :
    (createSendPromise tracksFix true stSomeFix pktSeq2).1 =
      ChunkOutcome.sentObj
        { trackId := 0, groupSeq := 4, objSeq := 0, sendOrder := 4503599627370498 } := by
  have h := (groupObjectSequencing.1 tracksFix stSomeFix pktSeq2 audioTrackFix
    { currentGroupSeq := 3, currentObjectSeq := 2 } (by decide) rfl (by decide)).1
  rw [h]
  decide

/-- Group sequence currently stored for a track id, 0 when absent. -/
def curGroup (st : PubState) (tid : Nat) : Nat :=
  match st.moqPublisherState tid with
  | some ts => ts.currentGroupSeq
  | none => 0

/-- One chunk on the data track is always packaged as a key, so it is
emitted unconditionally and opens a new group. -/
theorem createRequest_data_step (tracks : List (String × Track)) (st : PubState)
    (cd : ChunkData) (track : Track) (hm : cd.mediaType = "data")
    (hl : lookupTrack tracks "data" = some track) :
    (createRequest tracks true st cd).1 =
      ChunkOutcome.sentObj
        { trackId := track.id, groupSeq := curGroup st track.id + 1, objSeq := 0,
          sendOrder := moqCalculateSendOrder tracks (createRequestPacket cd) } ∧
    (createRequest tracks true st cd).2.moqPublisherState track.id =
      some { currentGroupSeq := curGroup st track.id + 1, currentObjectSeq := 1 } ∧
    (∀ tid, tid ≠ track.id →
      (createRequest tracks true st cd).2.moqPublisherState tid =
        st.moqPublisherState tid) := by
  have hkd : ((createRequestPacket cd).chunkType = "delta") = False := by
    simp [createRequestPacket, hm]
  have hmt : (createRequestPacket cd).mediaType = "data" := by
    simp [createRequestPacket, hm]
  have heq : createRequest tracks true st cd =
      sendPacketObject tracks st track (createRequestPacket cd) := by
    unfold createRequest
    simp only [createSendPromise, hmt, hl]
    rw [if_neg (by simp), if_neg (by
      intro hcon
      exact (hkd ▸ hcon.2 : False))]
  rw [heq]
  rcases hs : st.moqPublisherState track.id with _ | ts
  · refine ⟨?_, ?_, ?_⟩
    · simp [sendPacketObject, hs, hkd, createTrackState, curGroup]
    · simp [sendPacketObject, hs, hkd, createTrackState, curGroup,
        addToInflight_moqPublisherState]
    · intro tid hne
      simp [sendPacketObject, hs, hkd, addToInflight_moqPublisherState, hne]
  · refine ⟨?_, ?_, ?_⟩
    · simp [sendPacketObject, hs, hkd, curGroup]
    · simp [sendPacketObject, hs, hkd, curGroup, addToInflight_moqPublisherState]
    · intro tid hne
      simp [sendPacketObject, hs, hkd, addToInflight_moqPublisherState, hne]

/-- Running any list of data chunks emits exactly one object per chunk,
every object sequence is 0 and the group sequences count up one by one
from the stored group of the data track. -/
theorem runChunkRequests_data (tracks : List (String × Track)) (track : Track)
    (hl : lookupTrack tracks "data" = some track) :
    ∀ (cs : List ChunkData) (st : PubState), (∀ c ∈ cs, c.mediaType = "data") →
      emittedPairs (runChunkRequests tracks true st cs).1 track.id =
        (List.range cs.length).map (fun i => (curGroup st track.id + i + 1, 0)) := by
  intro cs
  induction cs with
  | nil =>
    intro st h
    simp [runChunkRequests, emittedPairs]
  | cons c rest ih =>
    intro st h
    obtain ⟨hstep1, hstep2, _⟩ :=
      createRequest_data_step tracks st c track (h c (by simp)) hl
    have hrw : emittedPairs (runChunkRequests tracks true st (c :: rest)).1 track.id =
        (curGroup st track.id + 1, 0) ::
          emittedPairs
            (runChunkRequests tracks true (createRequest tracks true st c).2 rest).1
            track.id := by
      simp only [runChunkRequests, emittedPairs, List.filterMap_cons, hstep1]
      simp
    rw [hrw]
    have hcur : curGroup (createRequest tracks true st c).2 track.id =
        curGroup st track.id + 1 := by
      simp [curGroup, hstep2]
    rw [ih (createRequest tracks true st c).2 (fun c2 hc2 => h c2 (by simp [hc2])), hcur]
    rw [List.length_cons, List.range_succ_eq_map, List.map_cons, List.map_map]
    refine congrArg₂ List.cons (by simp) ?_
    refine List.map_congr_left ?_
    intro i hi
    simp [Function.comp, Prod.ext_iff]
    omega

/-- C10: a chunk arriving on the data track is packaged with chunk type
key regardless of the inbound chunk type; consequently such a chunk is
never rejected by the first-object-must-be-key rule but emitted
unconditionally with object sequence 0 and a group one above the stored
group, and a run of data chunks from the initial state emits exactly the
pairs (1, 0), (2, 0) and so on. -/
theorem dataTrackAlwaysKey :
    (∀ cd : ChunkData, cd.mediaType = "data" → (createRequestPacket cd).chunkType = "key") ∧
    (∀ tracks (st : PubState) (cd : ChunkData) track,
      cd.mediaType = "data" → lookupTrack tracks "data" = some track →
      ∃ obj, (createRequest tracks true st cd).1 = ChunkOutcome.sentObj obj ∧
        obj.objSeq = 0 ∧ obj.groupSeq = curGroup st track.id + 1) ∧
    (∀ tracks track (cs : List ChunkData),
      lookupTrack tracks "data" = some track →
      (∀ c ∈ cs, c.mediaType = "data") →
      emittedPairs (runChunkRequests tracks true initPubState cs).1 track.id =
        (List.range cs.length).map (fun i => (i + 1, 0))) := by
  refine ⟨?_, ?_, ?_⟩
  · intro cd hm
    simp [createRequestPacket, hm]
  · intro tracks st cd track hm hl
    obtain ⟨h1, _, _⟩ := createRequest_data_step tracks st cd track hm hl
    exact ⟨_, h1, rfl, rfl⟩
  · intro tracks track cs hl hall
    rw [runChunkRequests_data tracks track hl cs initPubState hall]
    refine List.map_congr_left ?_
    intro i hi
    simp [curGroup, initPubState]

/-- A data track fixture with id 2. -/
def dataTrackFix : Track :=
  { id := 2, trackNamespace := "ns", trackName := "d", authInfo := "secret",
    isHipri := false, maxInFlightRequests := 10, numSubscribers := some 1 }

/-- Configuration with an audio track and a data track. -/
def tracksDataFix : List (String × Track) :=
  [( "audio", audioTrackFix ), ( "data", dataTrackFix )]

/-- An inbound data chunk that even claims to be a delta. -/
def dataChunkFix1 : ChunkData :=
  { mediaType := "data", chunkType := "delta", seqId := 0, pId := 0, dataStr := "x" }

/-- A second inbound data chunk claiming to be a delta. -/
def dataChunkFix2 : ChunkData :=
  { mediaType := "data", chunkType := "delta", seqId := 1, pId := 1, dataStr := "y" }

/-- C10, witness: two inbound data chunks marked delta are both
emitted (never rejected) and open groups 1 and 2 with object sequence
0. -/
theorem dataTrackAlwaysKeyWitness :
    emittedPairs
        (runChunkRequests tracksDataFix true initPubState [dataChunkFix1, dataChunkFix2]).1
        2 =
      [(1, 0), (2, 0)] := by
  have h := dataTrackAlwaysKey.2.2 tracksDataFix dataTrackFix [dataChunkFix1, dataChunkFix2]
    (by decide) (by decide)
  have hid : dataTrackFix.id = 2 := rfl
  rw [hid] at h
  rw [h]
  decide

/-- Packaging preserves the media type of the chunk. -/
theorem createRequestPacket_mediaType (cd : ChunkData) :
    (createRequestPacket cd).mediaType = cd.mediaType := by
  unfold createRequestPacket
  split <;> rfl

/-- Packaging preserves the promise id of the chunk. -/
theorem createRequestPacket_pId (cd : ChunkData) :
    (createRequestPacket cd).pId = cd.pId := by
  unfold createRequestPacket
  split <;> rfl

/-- Packaging a key chunk yields a key packet on every track. -/
theorem createRequestPacket_key (cd : ChunkData) (hk : cd.chunkType = "key") :
    (createRequestPacket cd).chunkType = "key" := by
  unfold createRequestPacket
  split <;> simp [hk]

/-- Effect of sendPacketObject on the in-flight maps: the promise id of
the packet is inserted into the set of its media type unless it is
already there; every other set is untouched. -/
theorem sendPacketObject_inflight (tracks : List (String × Track)) (st : PubState)
    (track : Track) (packet : PacketData) (ty : String) :
    (sendPacketObject tracks st track packet).2.inFlightRequests ty =
      (if packet.pId ∈ st.inFlightRequests packet.mediaType then st.inFlightRequests ty
       else if ty = packet.mediaType then insert packet.pId (st.inFlightRequests ty)
       else st.inFlightRequests ty) := by
  rcases hs : st.moqPublisherState track.id with _ | ts <;>
    simp only [sendPacketObject, addToInflight, hs] <;>
    split_ifs <;> first
      | rfl
      | simp [*]

/-- createSendPromise changes at most the in-flight set of the packet
media type, and there only by inserting the packet promise id. -/
theorem createSendPromise_inflight (tracks : List (String × Track)) (wtOpen : Bool)
    (st : PubState) (packet : PacketData) (ty : String) :
    (createSendPromise tracks wtOpen st packet).2.inFlightRequests ty =
      st.inFlightRequests ty ∨
    (ty = packet.mediaType ∧
      (createSendPromise tracks wtOpen st packet).2.inFlightRequests ty =
        insert packet.pId (st.inFlightRequests ty)) := by
  by_cases hw : wtOpen = false
  · left
    have heq : (createSendPromise tracks wtOpen st packet).2 = st := by
      simp only [createSendPromise]
      rw [if_pos hw]
    rw [heq]
  · rcases hl : lookupTrack tracks packet.mediaType with _ | track
    · left
      have heq : (createSendPromise tracks wtOpen st packet).2 = st := by
        simp only [createSendPromise, hl]
        rw [if_neg hw]
      rw [heq]
    · by_cases hg : (st.moqPublisherState track.id).isNone ∧ packet.chunkType = "delta"
      · left
        have heq : (createSendPromise tracks wtOpen st packet).2 = st := by
          simp only [createSendPromise, hl]
          rw [if_neg hw, if_pos hg]
        rw [heq]
      · have heq : (createSendPromise tracks wtOpen st packet).2 =
            (sendPacketObject tracks st track packet).2 := by
          simp only [createSendPromise, hl]
          rw [if_neg hw, if_neg hg]
        rw [heq, sendPacketObject_inflight]
        by_cases hmem : packet.pId ∈ st.inFlightRequests packet.mediaType
        · left
          rw [if_pos hmem]
        · by_cases hty : ty = packet.mediaType
          · right
            exact ⟨hty, by rw [if_neg hmem, if_pos hty]⟩
          · left
            rw [if_neg hmem, if_neg hty]

/-- The per-track in-flight bound of claim C1: for every configured
track the in-flight set holds at most maxInFlightRequests entries. -/
def InflightBounded (tracks : List (String × Track)) (st : PubState) : Prop :=
  ∀ ty track, lookupTrack tracks ty = some track →
    (st.inFlightRequests ty).card ≤ track.maxInFlightRequests

/-- A chunk message changes at most the in-flight set of its own track,
and only inserts its promise id there after the window check passed. -/
theorem handleChunkMessage_inflight (tracks : List (String × Track)) (wtOpen : Bool)
    (st : PubState) (cd : ChunkData) (ty : String) :
    (handleChunkMessage tracks StateEnum.Running wtOpen st cd).2.inFlightRequests ty =
      st.inFlightRequests ty ∨
    (ty = cd.mediaType ∧
      ∃ track, lookupTrack tracks cd.mediaType = some track ∧
        (st.inFlightRequests cd.mediaType).card < track.maxInFlightRequests ∧
        (handleChunkMessage tracks StateEnum.Running wtOpen st cd).2.inFlightRequests ty =
          insert cd.pId (st.inFlightRequests ty)) := by
  rcases hlc : lookupTrack tracks cd.mediaType with _ | track2
  · left
    have heq : (handleChunkMessage tracks StateEnum.Running wtOpen st cd).2 = st := by
      simp only [handleChunkMessage, hlc]
      rw [if_neg (fun hcon => hcon rfl)]
    rw [heq]
  · rcases hns : track2.numSubscribers with _ | n
    · left
      have heq : (handleChunkMessage tracks StateEnum.Running wtOpen st cd).2 = st := by
        simp only [handleChunkMessage, hlc, hns]
        rw [if_neg (fun hcon => hcon rfl)]
      rw [heq]
    · by_cases hn0 : n = 0
      · left
        have heq : (handleChunkMessage tracks StateEnum.Running wtOpen st cd).2 = st := by
          simp only [handleChunkMessage, hlc, hns]
          rw [if_neg (fun hcon => hcon rfl), if_pos hn0]
        rw [heq]
      · by_cases hfull :
          track2.maxInFlightRequests ≤ (st.inFlightRequests cd.mediaType).card
        · left
          have heq : (handleChunkMessage tracks StateEnum.Running wtOpen st cd).2 = st := by
            simp only [handleChunkMessage, hlc, hns, sendChunkToTransport]
            rw [if_neg (fun hcon => hcon rfl), if_neg hn0, if_pos hfull]
          rw [heq]
        · have heq : (handleChunkMessage tracks StateEnum.Running wtOpen st cd).2 =
              (createSendPromise tracks wtOpen st (createRequestPacket cd)).2 := by
            simp only [handleChunkMessage, hlc, hns, sendChunkToTransport, createRequest]
            rw [if_neg (fun hcon => hcon rfl), if_neg hn0, if_neg hfull]
          rcases createSendPromise_inflight tracks wtOpen st (createRequestPacket cd) ty with
            hsame | ⟨hty, hins⟩
          · left
            rw [heq, hsame]
          · right
            rw [createRequestPacket_mediaType] at hty
            refine ⟨hty, track2, rfl, by omega, ?_⟩
            rw [heq, hins, createRequestPacket_pId]

/-- One engine step preserves the in-flight bound. -/
theorem pubStep_bounded (tracks : List (String × Track)) (wtOpen : Bool)
    (st : PubState) (e : PubEvent) (h : InflightBounded tracks st) :
    InflightBounded tracks (pubStep tracks wtOpen st e).2 := by
  cases e with
  | settle ty2 id =>
    intro ty track hl
    simp only [pubStep, removeFromInflight]
    split
    · exact le_trans (Finset.card_erase_le) (h ty track hl)
    · exact h ty track hl
  | chunkMsg cd =>
    intro ty track hl
    rcases handleChunkMessage_inflight tracks wtOpen st cd ty with
      hsame | ⟨hty, track2, hl2, hlt, hins⟩
    · simp only [pubStep]
      rw [hsame]
      exact h ty track hl
    · subst hty
      rw [hl2] at hl
      cases hl
      simp only [pubStep]
      rw [hins]
      exact le_trans (Finset.card_insert_le _ _) (by omega)

/-- Any run from a bounded state stays bounded. -/
theorem pubRun_bounded (tracks : List (String × Track)) (wtOpen : Bool) :
    ∀ (es : List PubEvent) (st : PubState), InflightBounded tracks st →
      InflightBounded tracks (pubRun tracks wtOpen st es).2 := by
  intro es
  induction es with
  | nil =>
    intro st h
    simpa [pubRun] using h
  | cons e rest ih =>
    intro st h
    have hrw : (pubRun tracks wtOpen st (e :: rest)).2 =
        (pubRun tracks wtOpen (pubStep tracks wtOpen st e).2 rest).2 := by
      simp only [pubRun]
    rw [hrw]
    exact ih _ (pubStep_bounded tracks wtOpen st e h)

/-- When the in-flight window of the track is full, the arriving chunk
itself is dropped with the verbatim source reason and the state is
returned untouched. -/
theorem handleChunk_full_drop (tracks : List (String × Track)) (ty : String)
    (track : Track) (hl : lookupTrack tracks ty = some track) (n : Nat)
    (hsub : track.numSubscribers = some n) (hn : n ≠ 0) (st : PubState)
    (c : ChunkData) (hm : c.mediaType = ty)
    (hcard : track.maxInFlightRequests ≤ (st.inFlightRequests ty).card) :
    handleChunkMessage tracks StateEnum.Running true st c =
      (ChunkOutcome.droppedMsg "too many inflight requests", st) := by
  subst hm
  simp only [handleChunkMessage, hl, hsub, sendChunkToTransport]
  rw [if_neg (fun hcon => hcon rfl), if_neg hn, if_pos hcard]

/-- When the window is not full, a key chunk with a fresh promise id is
accepted: one object is emitted, the promise id joins the in-flight set
of the track and every other in-flight set is untouched. -/
theorem handleChunk_accept (tracks : List (String × Track)) (ty : String)
    (track : Track) (hl : lookupTrack tracks ty = some track) (n : Nat)
    (hsub : track.numSubscribers = some n) (hn : n ≠ 0) (st : PubState)
    (c : ChunkData) (hm : c.mediaType = ty) (hk : c.chunkType = "key")
    (hcard : (st.inFlightRequests ty).card < track.maxInFlightRequests)
    (hp : c.pId ∉ st.inFlightRequests ty) :
    (∃ obj, (handleChunkMessage tracks StateEnum.Running true st c).1 =
      ChunkOutcome.sentObj obj) ∧
    (handleChunkMessage tracks StateEnum.Running true st c).2.inFlightRequests ty =
      insert c.pId (st.inFlightRequests ty) ∧
    (∀ ty2, ty2 ≠ ty →
      (handleChunkMessage tracks StateEnum.Running true st c).2.inFlightRequests ty2 =
        st.inFlightRequests ty2) := by
  subst hm
  have hkt := createRequestPacket_key c hk
  have hred : handleChunkMessage tracks StateEnum.Running true st c =
      createSendPromise tracks true st (createRequestPacket c) := by
    simp only [handleChunkMessage, hl, hsub, sendChunkToTransport, createRequest]
    rw [if_neg (fun hcon => hcon rfl), if_neg hn, if_neg (by omega)]
  have hred2 : createSendPromise tracks true st (createRequestPacket c) =
      sendPacketObject tracks st track (createRequestPacket c) := by
    simp only [createSendPromise, createRequestPacket_mediaType, hl]
    rw [if_neg (by simp), if_neg (by
      intro hcon
      rw [hkt] at hcon
      exact absurd hcon.2 (by decide))]
  rw [hred, hred2]
  refine ⟨⟨_, rfl⟩, ?_, ?_⟩
  · rw [sendPacketObject_inflight, createRequestPacket_mediaType, createRequestPacket_pId]
    rw [if_neg hp, if_pos rfl]
  · intro ty2 hne
    rw [sendPacketObject_inflight, createRequestPacket_mediaType, createRequestPacket_pId]
    rw [if_neg hp, if_neg hne]

/-- Counting lemma behind claim C1: submitting key chunks with fresh,
pairwise distinct promise ids on one subscribed track drops exactly the
chunks beyond the remaining window capacity, with the verbatim source
reason. -/
theorem pubRun_drop_count (tracks : List (String × Track)) (ty : String) (track : Track)
    (hl : lookupTrack tracks ty = some track) (n : Nat)
    (hsub : track.numSubscribers = some n) (hn : n ≠ 0) :
    ∀ (cs : List ChunkData) (st : PubState),
      (∀ c ∈ cs, c.mediaType = ty ∧ c.chunkType = "key" ∧
        c.pId ∉ st.inFlightRequests ty) →
      (cs.map ChunkData.pId).Nodup →
      countInflightDrops (pubRun tracks true st (cs.map PubEvent.chunkMsg)).1 =
        cs.length - (track.maxInFlightRequests - (st.inFlightRequests ty).card) := by
  intro cs
  induction cs with
  | nil =>
    intro st h hnd
    simp [pubRun, countInflightDrops]
  | cons c rest ih =>
    intro st h hnd
    obtain ⟨hm, hk, hp⟩ := h c (by simp)
    have hndtl : (rest.map ChunkData.pId).Nodup := by
      rw [List.map_cons, List.nodup_cons] at hnd
      exact hnd.2
    have hhd : c.pId ∉ rest.map ChunkData.pId := by
      rw [List.map_cons, List.nodup_cons] at hnd
      exact hnd.1
    by_cases hfull : track.maxInFlightRequests ≤ (st.inFlightRequests ty).card
    · have hstep := handleChunk_full_drop tracks ty track hl n hsub hn st c hm hfull
      have hrw : (pubRun tracks true st ((c :: rest).map PubEvent.chunkMsg)).1 =
          some (ChunkOutcome.droppedMsg "too many inflight requests") ::
            (pubRun tracks true st (rest.map PubEvent.chunkMsg)).1 := by
        simp only [List.map_cons, pubRun, pubStep, hstep]
      rw [hrw]
      have hcount : countInflightDrops
          (some (ChunkOutcome.droppedMsg "too many inflight requests") ::
            (pubRun tracks true st (rest.map PubEvent.chunkMsg)).1) =
          countInflightDrops (pubRun tracks true st (rest.map PubEvent.chunkMsg)).1 + 1 := by
        simp [countInflightDrops, List.countP_cons]
      rw [hcount, ih st (fun c2 hc2 => h c2 (by simp [hc2])) hndtl]
      simp only [List.length_cons]
      omega
    · push_neg at hfull
      obtain ⟨⟨obj, hobj⟩, hins, _⟩ :=
        handleChunk_accept tracks ty track hl n hsub hn st c hm hk hfull hp
      have hrw : (pubRun tracks true st ((c :: rest).map PubEvent.chunkMsg)).1 =
          some ((handleChunkMessage tracks StateEnum.Running true st c).1) ::
            (pubRun tracks true (handleChunkMessage tracks StateEnum.Running true st c).2
              (rest.map PubEvent.chunkMsg)).1 := by
        simp only [List.map_cons, pubRun, pubStep]
      rw [hrw]
      have hcount : countInflightDrops
          (some ((handleChunkMessage tracks StateEnum.Running true st c).1) ::
            (pubRun tracks true (handleChunkMessage tracks StateEnum.Running true st c).2
              (rest.map PubEvent.chunkMsg)).1) =
          countInflightDrops
            (pubRun tracks true (handleChunkMessage tracks StateEnum.Running true st c).2
              (rest.map PubEvent.chunkMsg)).1 := by
        simp [countInflightDrops, List.countP_cons, hobj]
      rw [hcount]
      have hrest : ∀ c2 ∈ rest, c2.mediaType = ty ∧ c2.chunkType = "key" ∧
          c2.pId ∉ (handleChunkMessage tracks StateEnum.Running true st c).2.inFlightRequests ty := by
        intro c2 hc2
        obtain ⟨hm2, hk2, hp2⟩ := h c2 (by simp [hc2])
        refine ⟨hm2, hk2, ?_⟩
        rw [hins]
        intro hmem
        rcases Finset.mem_insert.mp hmem with heq2 | hmem2
        · exact hhd (heq2 ▸ List.mem_map_of_mem ChunkData.pId hc2)
        · exact hp2 hmem2
      rw [ih (handleChunkMessage tracks StateEnum.Running true st c).2 hrest hndtl]
      have hcard2 : ((handleChunkMessage tracks StateEnum.Running true st c).2.inFlightRequests
          ty).card = (st.inFlightRequests ty).card + 1 := by
        rw [hins]
        exact Finset.card_insert_of_not_mem hp
      rw [hcard2]
      simp only [List.length_cons]
      omega

/-- C1: the in-flight window: a chunk arriving when the window of its
track is already full is dropped with the verbatim reason too many
inflight requests and the state, including all older entries, is
untouched; every run from the initial state keeps each per-track
in-flight set within maxInFlightRequests; and submitting
maxInFlightRequests plus k key chunks with distinct promise ids on one
subscribed track, with no close promise settling in between, produces
exactly k such drops. -/
theorem inflightBoundAndDropCount :
    (∀ tracks (wtOpen : Bool) (st : PubState) (cd : ChunkData) (m : Nat),
      m ≤ (st.inFlightRequests cd.mediaType).card →
      sendChunkToTransport tracks wtOpen st (some cd) m =
        (ChunkOutcome.droppedMsg "too many inflight requests", st)) ∧
    (∀ tracks (wtOpen : Bool) (es : List PubEvent),
      InflightBounded tracks (pubRun tracks wtOpen initPubState es).2) ∧
    (∀ tracks ty track (n k : Nat) (cs : List ChunkData),
      lookupTrack tracks ty = some track →
      track.numSubscribers = some n → n ≠ 0 →
      (∀ c ∈ cs, c.mediaType = ty ∧ c.chunkType = "key") →
      (cs.map ChunkData.pId).Nodup →
      cs.length = track.maxInFlightRequests + k →
      countInflightDrops
        (pubRun tracks true initPubState (cs.map PubEvent.chunkMsg)).1 = k) := by
  refine ⟨?_, ?_, ?_⟩
  · intro tracks wtOpen st cd m hm
    simp only [sendChunkToTransport]
    rw [if_pos hm]
  · intro tracks wtOpen es
    exact pubRun_bounded tracks wtOpen es initPubState
      (fun ty track hl => by simp [initPubState])
  · intro tracks ty track n k cs hl hsub hn hall hnd hlen
    have h := pubRun_drop_count tracks ty track hl n hsub hn cs initPubState
      (fun c hc => ⟨(hall c hc).1, (hall c hc).2, by simp [initPubState]⟩) hnd
    rw [h, hlen]
    simp [initPubState]

/-- A track with window 1 and one subscriber. -/
def tinyTrackFix : Track :=
  { id := 5, trackNamespace := "ns", trackName := "t", authInfo := "secret",
    isHipri := false, maxInFlightRequests := 1, numSubscribers := some 1 }

/-- Configuration with only the window-1 track. -/
def tracksTinyFix : List (String × Track) :=
  [( "tiny", tinyTrackFix )]

/-- Key chunks on the window-1 track with the promise id as parameter. -/
def tinyChunk (i : Nat) : ChunkData :=
  { mediaType := "tiny", chunkType := "key", seqId := 0, pId := i, dataStr := "x" }

/-- C1, witness: with a full window of bound 0 the arriving chunk is
dropped in place, and submitting 1 + 2 key chunks on the window-1 track
with no settlement yields exactly 2 drops. -/
theorem inflightBoundAndDropCountWitness :
    sendChunkToTransport tracksTinyFix true initPubState (some (tinyChunk 0)) 0 =
      (ChunkOutcome.droppedMsg "too many inflight requests", initPubState) ∧
    countInflightDrops
        (pubRun tracksTinyFix true initPubState
          ([tinyChunk 0, tinyChunk 1, tinyChunk 2].map PubEvent.chunkMsg)).1 = 2 := by
  constructor
  · exact inflightBoundAndDropCount.1 tracksTinyFix true initPubState (tinyChunk 0) 0
      (by decide)
  · exact inflightBoundAndDropCount.2.2 tracksTinyFix "tiny" tinyTrackFix 1 2
      [tinyChunk 0, tinyChunk 1, tinyChunk 2] (by decide) rfl (by decide) (by decide)
      (by decide) (by decide)

/-- The announce loop only ever throws a namespace mismatch. -/
theorem announceAll_error_shape (replyNamespace : String → String) :
    ∀ (entries : List (String × Track)) (announced : List String) (e : HandshakeErr),
      announceAll replyNamespace entries announced = Except.error e →
      ∃ exp got, e = HandshakeErr.announceNamespaceMismatch exp got := by
  intro entries
  induction entries with
  | nil =>
    intro announced e h
    simp [announceAll] at h
  | cons p rest ih =>
    intro announced e h
    by_cases hmem : p.2.trackNamespace ∈ announced
    · rw [announceAll, if_pos hmem] at h
      exact ih announced e h
    · rw [announceAll, if_neg hmem] at h
      by_cases hrep : p.2.trackNamespace ≠ replyNamespace p.2.trackNamespace
      · rw [if_pos hrep] at h
        cases h
        exact ⟨_, _, rfl⟩
      · rw [if_neg hrep] at h
        exact ih (announced ++ [p.2.trackNamespace]) e h

/-- When every reply echoes the announced namespace the loop succeeds. -/
theorem announceAll_ok_of_match (replyNamespace : String → String) :
    ∀ (entries : List (String × Track)) (announced : List String),
      (∀ ns ∈ entries.map (fun p => p.2.trackNamespace), replyNamespace ns = ns) →
      ∃ l, announceAll replyNamespace entries announced = Except.ok l := by
  intro entries
  induction entries with
  | nil =>
    intro announced h
    exact ⟨announced, rfl⟩
  | cons p rest ih =>
    intro announced h
    by_cases hmem : p.2.trackNamespace ∈ announced
    · obtain ⟨l, hl⟩ := ih announced (fun ns hns => h ns (by simp [hns]))
      exact ⟨l, by rw [announceAll, if_pos hmem]; exact hl⟩
    · have hrep : replyNamespace p.2.trackNamespace = p.2.trackNamespace :=
        h p.2.trackNamespace (by simp)
      obtain ⟨l, hl⟩ := ih (announced ++ [p.2.trackNamespace])
        (fun ns hns => h ns (by simp [hns]))
      refine ⟨l, ?_⟩
      rw [announceAll, if_neg hmem, if_neg (by rw [hrep]; exact fun hcon => hcon rfl)]
      exact hl

/-- A successful announce loop announces each distinct namespace exactly
once and only namespaces whose reply echoed them back. -/
theorem announceAll_ok_props (replyNamespace : String → String) :
    ∀ (entries : List (String × Track)) (announced l : List String),
      announced.Nodup →
      announceAll replyNamespace entries announced = Except.ok l →
      l.Nodup ∧
      (∀ ns, ns ∈ l ↔ ns ∈ announced ∨ ns ∈ entries.map (fun p => p.2.trackNamespace)) ∧
      (∀ ns ∈ entries.map (fun p => p.2.trackNamespace),
        ns ∉ announced → replyNamespace ns = ns) := by
  intro entries
  induction entries with
  | nil =>
    intro announced l hnd h
    rw [announceAll] at h
    cases h
    exact ⟨hnd, by simp, by simp⟩
  | cons p rest ih =>
    intro announced l hnd h
    by_cases hmem : p.2.trackNamespace ∈ announced
    · rw [announceAll, if_pos hmem] at h
      obtain ⟨h1, h2, h3⟩ := ih announced l hnd h
      refine ⟨h1, ?_, ?_⟩
      · intro ns
        rw [h2 ns]
        simp only [List.map_cons, List.mem_cons]
        constructor
        · intro hcase
          rcases hcase with hc | hc
          · exact Or.inl hc
          · exact Or.inr (Or.inr hc)
        · intro hcase
          rcases hcase with hc | hc | hc
          · exact Or.inl hc
          · exact Or.inl (hc ▸ hmem)
          · exact Or.inr hc
      · intro ns hns hnot
        simp only [List.map_cons, List.mem_cons] at hns
        rcases hns with hc | hc
        · exact absurd (hc ▸ hmem) hnot
        · exact h3 ns hc hnot
    · rw [announceAll, if_neg hmem] at h
      by_cases hrep : p.2.trackNamespace ≠ replyNamespace p.2.trackNamespace
      · rw [if_pos hrep] at h
        cases h
      · rw [if_neg hrep] at h
        push_neg at hrep
        have hnd2 : (announced ++ [p.2.trackNamespace]).Nodup := by
          simp [List.nodup_append, hnd, hmem]
        obtain ⟨h1, h2, h3⟩ := ih (announced ++ [p.2.trackNamespace]) l hnd2 h
        refine ⟨h1, ?_, ?_⟩
        · intro ns
          rw [h2 ns]
          simp only [List.mem_append, List.mem_singleton, List.map_cons, List.mem_cons]
          tauto
        · intro ns hns hnot
          simp only [List.map_cons, List.mem_cons] at hns
          rcases hns with hc | hc
          · rw [hc]
            exact hrep.symm
          · by_cases hin : ns ∈ announced ++ [p.2.trackNamespace]
            · simp only [List.mem_append, List.mem_singleton] at hin
              rcases hin with hin | hin
              · exact absurd hin hnot
              · rw [hin]
                exact hrep.symm
            · exact h3 ns hc hin

/-- The subscribe loop of the downloader only ever throws a mismatch of
the echoed namespace or name. -/
theorem subscribeAll_error_shape (reply : String → String → SubscribeReplyWire) :
    ∀ (entries : List (String × Track)) (e : HandshakeErr),
      subscribeAll reply entries = Except.error e →
      ∃ a b c d, e = HandshakeErr.subscribeMismatch a b c d := by
  intro entries
  induction entries with
  | nil =>
    intro e h
    simp [subscribeAll] at h
  | cons p rest ih =>
    intro e h
    rw [subscribeAll] at h
    by_cases hmis : p.2.trackNamespace ≠ (reply p.2.trackNamespace p.2.trackName).trackNamespace ∨
        p.2.trackName ≠ (reply p.2.trackNamespace p.2.trackName).trackName
    · rw [if_pos hmis] at h
      cases h
      exact ⟨_, _, _, _, rfl⟩
    · rw [if_neg hmis] at h
      rcases hrest : subscribeAll reply rest with e2 | l2
      · rw [hrest] at h
        cases h
        exact ih _ hrest
      · rw [hrest] at h
        cases h

/-- C8: the publisher session throws at the setup stage exactly when
the SETUP_OK role is neither SUBSCRIBER nor BOTH, the subscriber session
throws at the setup stage exactly when the role is neither PUBLISHER nor
BOTH, a namespace mismatch in an ANNOUNCE_OK is fatal (a successful
session implies every announced namespace was echoed back), and a
successful session announces each distinct configured namespace exactly
once. -/
theorem sessionHandshake :
    (∀ tracks (resp : SetupResponse) (replyNamespace : String → String),
      moqCreatePublisherSession tracks resp replyNamespace =
          Except.error HandshakeErr.roleNotSupported ↔
        (resp.role ≠ MOQ_PARAMETER_ROLE_SUBSCRIBER ∧
          resp.role ≠ MOQ_PARAMETER_ROLE_BOTH)) ∧
    (∀ tracks (resp : SetupResponse) (reply : String → String → SubscribeReplyWire),
      moqCreateSubscriberSession tracks resp reply =
          Except.error HandshakeErr.roleNotSupported ↔
        (resp.role ≠ MOQ_PARAMETER_ROLE_PUBLISHER ∧
          resp.role ≠ MOQ_PARAMETER_ROLE_BOTH)) ∧
    (∀ tracks (resp : SetupResponse) (replyNamespace : String → String),
      (resp.role = MOQ_PARAMETER_ROLE_SUBSCRIBER ∨ resp.role = MOQ_PARAMETER_ROLE_BOTH) →
      ((∀ ns ∈ tracks.map (fun p => p.2.trackNamespace), replyNamespace ns = ns) →
        ∃ l, moqCreatePublisherSession tracks resp replyNamespace = Except.ok l ∧
          l.Nodup ∧
          (∀ ns, ns ∈ l ↔ ns ∈ tracks.map (fun p => p.2.trackNamespace))) ∧
      (∀ l, moqCreatePublisherSession tracks resp replyNamespace = Except.ok l →
        ∀ ns ∈ tracks.map (fun p => p.2.trackNamespace), replyNamespace ns = ns)) := by
  refine ⟨?_, ?_, ?_⟩
  · intro tracks resp replyNamespace
    constructor
    · intro h
      by_cases hrole : resp.role ≠ MOQ_PARAMETER_ROLE_SUBSCRIBER ∧
          resp.role ≠ MOQ_PARAMETER_ROLE_BOTH
      · exact hrole
      · rw [moqCreatePublisherSession, if_neg hrole] at h
        obtain ⟨exp, got, hshape⟩ :=
          announceAll_error_shape replyNamespace tracks [] _ h
        cases hshape
    · intro hrole
      rw [moqCreatePublisherSession, if_pos hrole]
  · intro tracks resp reply
    constructor
    · intro h
      by_cases hrole : resp.role ≠ MOQ_PARAMETER_ROLE_PUBLISHER ∧
          resp.role ≠ MOQ_PARAMETER_ROLE_BOTH
      · exact hrole
      · rw [moqCreateSubscriberSession, if_neg hrole] at h
        obtain ⟨a, b, c, d, hshape⟩ := subscribeAll_error_shape reply tracks _ h
        cases hshape
    · intro hrole
      rw [moqCreateSubscriberSession, if_pos hrole]
  · intro tracks resp replyNamespace hrole
    have hrole2 : ¬(resp.role ≠ MOQ_PARAMETER_ROLE_SUBSCRIBER ∧
        resp.role ≠ MOQ_PARAMETER_ROLE_BOTH) := by
      tauto
    constructor
    · intro hmatch
      obtain ⟨l, hl⟩ := announceAll_ok_of_match replyNamespace tracks [] hmatch
      obtain ⟨h1, h2, _⟩ :=
        announceAll_ok_props replyNamespace tracks [] l List.nodup_nil hl
      refine ⟨l, ?_, h1, ?_⟩
      · rw [moqCreatePublisherSession, if_neg hrole2]
        exact hl
      · intro ns
        rw [h2 ns]
        simp
    · intro l hl ns hns
      rw [moqCreatePublisherSession, if_neg hrole2] at hl
      obtain ⟨_, _, h3⟩ :=
        announceAll_ok_props replyNamespace tracks [] l List.nodup_nil hl
      exact h3 ns hns (by simp)

/-- C8, witness: on the two-track single-namespace configuration a
SETUP_OK with role PUBLISHER (1) makes the publisher session throw,
while role SUBSCRIBER (2) with echoing replies succeeds and announces
the shared namespace exactly once. -/
theorem sessionHandshakeWitness :
    moqCreatePublisherSession tracksFix { version := 1, role := 1 } (fun ns => ns) =
      Except.error HandshakeErr.roleNotSupported ∧
    ∃ l, moqCreatePublisherSession tracksFix { version := 1, role := 2 } (fun ns => ns) =
        Except.ok l ∧ l.Nodup ∧
      (∀ ns, ns ∈ l ↔ ns ∈ tracksFix.map (fun p => p.2.trackNamespace)) := by
  constructor
  · exact (sessionHandshake.1 tracksFix { version := 1, role := 1 } (fun ns => ns)).mpr
      (by decide)
  · exact (sessionHandshake.2.2 tracksFix { version := 1, role := 2 } (fun ns => ns)
      (Or.inl rfl)).1 (fun ns hns => rfl)

end MoqEP
